import Mathlib

/-!
# Verification of ratelimit-kit core

Shallow embedding of the ratelimit-kit rate limiter: the orchestrator's cost
normalization (`src/core/ratelimit.ts`), the sliding-window algorithm
(`src/core/slidingWindow.ts`), the token-bucket algorithm
(`src/core/tokenBucket.ts`), the in-memory store (`src/store/memory.ts`) and
the header builder (`src/headers.ts`). JavaScript numbers are idealised as
rationals; the special values NaN and ±Infinity are modelled explicitly where
the code's behaviour on them matters (cost normalization). Epoch-millisecond
times are integers.
-/

namespace RatelimitKit

/-! ## JavaScript number model (for orchestrator cost normalization)

`Ratelimit.limit` computes `Math.max(0, Math.floor(this.costFn(ctx)) || 1)`.
To settle claims about non-finite cost-function results we model the JS
number line as a rational together with NaN and the two infinities, and the
three JS operations involved: `Math.floor`, `||` (falsy test) and `Math.max`.
-/

inductive JSNum where
  | nan : JSNum
  | posInf : JSNum
  | negInf : JSNum
  | num : ℚ → JSNum
deriving DecidableEq, Repr

/-- JS `Math.floor`: identity on NaN and the infinities, floor on finite values. -/
def jsFloor : JSNum → JSNum
  | .nan => .nan
  | .posInf => .posInf
  | .negInf => .negInf
  | .num q => .num ⌊q⌋

/-- JS truthiness of a number: `NaN` and `0` are falsy, everything else truthy. -/
def jsTruthy : JSNum → Bool
  | .nan => false
  | .posInf => true
  | .negInf => true
  | .num q => decide (q ≠ 0)

/-- JS `a || b`. -/
def jsOr (a b : JSNum) : JSNum := if jsTruthy a then a else b

/-- JS `Math.max` on two arguments: NaN-propagating maximum. -/
def jsMax : JSNum → JSNum → JSNum
  | .nan, _ => .nan
  | _, .nan => .nan
  | .posInf, _ => .posInf
  | _, .posInf => .posInf
  | .negInf, b => b
  | a, .negInf => a
  | .num q, .num r => .num (max q r)

/-- The cost actually passed to the algorithm by `Ratelimit.limit`
(`src/core/ratelimit.ts` line 21):
`Math.max(0, Math.floor(costFn(ctx)) || 1)`. -/
def normalizeCost (c : JSNum) : JSNum :=
  jsMax (.num 0) (jsOr (jsFloor c) (.num 1))

/-- The cost the spec's formula prescribes: `max(0, floor(costFn(context)))`,
with any non-finite cost-function result treated as `1`. -/
def specNormalizeCost (c : JSNum) : JSNum :=
  match c with
  | .num q => .num (max 0 ⌊q⌋)
  | _ => .num 1

/-! ## Sliding-window algorithm (`src/core/slidingWindow.ts`)

State shape `{windowStart, count, prevStart, prevCount}`; counts are JS
numbers (rationals here), window boundaries epoch-ms integers.
-/

structure SWState where
  windowStart : ℤ
  count : ℚ
  prevStart : ℤ
  prevCount : ℚ
deriving DecidableEq, Repr

structure SWResult where
  allowed : Bool
  limit : ℤ
  remaining : ℤ
  reset : ℤ
  retryAfter : Option ℤ
deriving DecidableEq, Repr

structure SWOutput where
  state : SWState
  result : SWResult
  ttlMs : ℤ
deriving DecidableEq, Repr

/-- The window boundary `Math.floor(now / windowMs) * windowMs`. -/
def curWindowStart (windowMs now : ℤ) : ℤ :=
  ⌊(now : ℚ) / (windowMs : ℚ)⌋ * windowMs

/-- The state after the absent-state default and the window-rollover shift of
`compute` (source lines `const s = state ?? {...}` and the
`if (s.windowStart !== curWindowStart)` block): an absent state is a fresh
state for the current window; a stored state from another window keeps its
`count` as `prevCount` exactly when it is the immediately-preceding window. -/
def swShift (windowMs : ℤ) (state : Option SWState) (now : ℤ) : SWState :=
  let cur := curWindowStart windowMs now
  let prevWS := cur - windowMs
  let s0 := state.getD ⟨cur, 0, prevWS, 0⟩
  if s0.windowStart ≠ cur then
    { windowStart := cur
      count := 0
      prevStart := if s0.windowStart = prevWS then s0.windowStart else prevWS
      prevCount := if s0.windowStart = prevWS then s0.count else 0 }
  else s0

/-- The decay weight `weight = overlapMs / windowMs` where
`overlapMs = windowMs - (now - curWindowStart)`. -/
def swWeight (windowMs now : ℤ) : ℚ :=
  ((windowMs - (now - curWindowStart windowMs now) : ℤ) : ℚ) / (windowMs : ℚ)

/-- The effective count `effective = s.count + (s.prevStart === prevWindowStart ? s.prevCount *
weight : 0)`, applied to the post-shift, post-increment state. -/
def swEffective (windowMs : ℤ) (s : SWState) (now : ℤ) : ℚ :=
  s.count +
    (if s.prevStart = curWindowStart windowMs now - windowMs then
      s.prevCount * swWeight windowMs now
    else 0)

/-- The body of `slidingWindow({limit, windowMs}).compute(state, cost, now)`, translated
clause by clause from the source. -/
def slidingWindowCompute (limit windowMs : ℤ) (state : Option SWState)
    (cost : ℚ) (now : ℤ) : SWOutput :=
  let s1 := swShift windowMs state now
  let s2 : SWState := { s1 with count := s1.count + cost }
  let effective : ℚ := swEffective windowMs s2 now
  let allowed : Bool := decide (effective ≤ (limit : ℚ))
  let remaining : ℤ := max 0 ⌊(limit : ℚ) - effective⌋
  let reset : ℤ := ⌈((s2.windowStart + windowMs : ℤ) : ℚ) / 1000⌉
  let retryAfter : Option ℤ :=
    if allowed then none else some (max 0 ((s2.windowStart + windowMs) - now))
  let ttlMs : ℤ := max 1000 ((s2.windowStart + 2 * windowMs) - now)
  ⟨s2, ⟨allowed, limit, remaining, reset, retryAfter⟩, ttlMs⟩

/-- The stored state after `n` same-key requests of a fixed cost issued at
the same instant `now` against a fresh key, obtained by threading each
call's `state` output into the next call (the orchestrator's
load → compute → save loop on one key). -/
def swSeq (limit windowMs : ℤ) (cost : ℚ) (now : ℤ) : ℕ → Option SWState
  | 0 => none
  | n + 1 =>
      some (slidingWindowCompute limit windowMs (swSeq limit windowMs cost now n)
        cost now).state

/-! ## Token-bucket algorithm (`src/core/tokenBucket.ts`)

State shape `{tokens, last}`; `tokens` a JS number (rational), `last` epoch ms.
-/

structure TBState where
  tokens : ℚ
  last : ℤ
deriving DecidableEq, Repr

structure TBResult where
  allowed : Bool
  limit : ℚ
  remaining : ℤ
  reset : ℤ
  retryAfter : Option ℤ
deriving DecidableEq, Repr

structure TBOutput where
  state : TBState
  result : TBResult
  ttlMs : ℤ
deriving DecidableEq, Repr

/-- The refill step of `tokenBucket(...).compute`: if `now > s.last`, add
`(now - s.last) * refillPerMs` tokens capped at `capacity` and advance
`last`; otherwise leave the state untouched. -/
def tbRefill (capacity refillPerMs : ℚ) (s : TBState) (now : ℤ) : TBState :=
  if now > s.last then
    ⟨min capacity (s.tokens + ((now - s.last : ℤ) : ℚ) * refillPerMs), now⟩
  else s

/-- The body of `tokenBucket({capacity, refillRatePerSec}).compute(state, cost, now)`,
translated clause by clause from the source (`refillPerMs =
refillRatePerSec / 1000`). -/
def tokenBucketCompute (capacity refillRatePerSec : ℚ) (state : Option TBState)
    (cost : ℚ) (now : ℤ) : TBOutput :=
  let refillPerMs := refillRatePerSec / 1000
  let s0 := state.getD ⟨capacity, now⟩
  let s1 := tbRefill capacity refillPerMs s0 now
  let admitted : Bool := decide (s1.tokens ≥ cost)
  let s2 : TBState := if admitted then ⟨s1.tokens - cost, s1.last⟩ else s1
  let retryAfter : Option ℤ :=
    if admitted then none
    else if refillPerMs > 0 then some ⌈(cost - s1.tokens) / refillPerMs⌉
    else none
  let remaining : ℤ := max 0 ⌊s2.tokens⌋
  let reset : ℤ := ⌈((now + 1000 : ℤ) : ℚ) / 1000⌉
  let ttlMs : ℤ := max 1000 ⌈capacity / refillPerMs + 1000⌉
  ⟨s2, ⟨admitted, capacity, remaining, reset, retryAfter⟩, ttlMs⟩

/-! ## In-memory store (`src/store/memory.ts`)

The store keeps a map from key to `{state, expiresAt}`. `Date.now()` becomes
an explicit `now` argument at each operation. The map is modelled as a
function from keys to optional entries; `cleanup` drops every entry whose
expiry has passed, exactly as the source iterates and deletes.
-/

structure MemEntry (σ : Type) where
  state : σ
  expiresAt : ℤ
deriving DecidableEq, Repr

def MemMap (σ : Type) := String → Option (MemEntry σ)

/-- The sweep `cleanup(now)`: delete every entry with `expiresAt <= now`. -/
def cleanup {σ : Type} (m : MemMap σ) (now : ℤ) : MemMap σ :=
  fun k =>
    match m k with
    | some v => if v.expiresAt ≤ now then none else some v
    | none => none

/-- Operation `load(key)` at time `now`: cleanup, then look the key up; a surviving
entry whose expiry has passed is deleted and reported absent. Returns the
loaded state (if any) and the store as mutated. -/
def msLoad {σ : Type} (m : MemMap σ) (key : String) (now : ℤ) :
    Option σ × MemMap σ :=
  let m1 := cleanup m now
  match m1 key with
  | none => (none, m1)
  | some v =>
      if v.expiresAt ≤ now then (none, fun k => if k = key then none else m1 k)
      else (some v.state, m1)

/-- Operation `save(key, state, ttlMs)` at time `now`: cleanup, then set the entry with
`expiresAt = now + ttlMs`. -/
def msSave {σ : Type} (m : MemMap σ) (key : String) (state : σ)
    (ttlMs now : ℤ) : MemMap σ :=
  let m1 := cleanup m now
  fun k => if k = key then some ⟨state, now + ttlMs⟩ else m1 k

/-- Operation `reset(key)`: delete the entry. -/
def msReset {σ : Type} (m : MemMap σ) (key : String) : MemMap σ :=
  fun k => if k = key then none else m k

/-- The empty store, as `memoryStore()` creates it. -/
def msEmpty {σ : Type} : MemMap σ := fun _ => none

/-! ## Header builder (`src/headers.ts`)

`build(result, opts)` fills a string-keyed record in program order; we model
the record as the association list of insertions (later duplicates carry the
same value as earlier ones, so `List.lookup` agrees with the JS record).
-/

structure HLimitResult where
  allowed : Bool
  limit : ℤ
  remaining : ℤ
  reset : ℤ
  retryAfter : Option ℚ
  now : ℤ
  policy : Option String
deriving DecidableEq, Repr

structure HeadersOptions where
  standard : Option Bool
  legacy : Option Bool
  policy : Option Bool
deriving DecidableEq, Repr

/-- The header builder `build(result, opts)` with destructuring defaults
`standard = true, legacy = false, policy = false`. -/
def buildHeaders (result : HLimitResult) (opts : HeadersOptions) :
    List (String × String) :=
  let standard := opts.standard.getD true
  let legacy := opts.legacy.getD false
  let policy := opts.policy.getD false
  let retrySeconds : Option String :=
    match result.retryAfter with
    | some r => some (toString ⌈r / 1000⌉)
    | none => none
  (if standard then
      [("RateLimit-Limit", toString result.limit),
       ("RateLimit-Remaining", toString result.remaining),
       ("RateLimit-Reset", toString result.reset)] ++
      (match retrySeconds with
       | some v => [("Retry-After", v)]
       | none => [])
    else []) ++
  (if legacy then
      [("X-RateLimit-Limit", toString result.limit),
       ("X-RateLimit-Remaining", toString result.remaining),
       ("X-RateLimit-Reset", toString result.reset)] ++
      (match retrySeconds with
       | some v => [("Retry-After", v)]
       | none => [])
    else []) ++
  (if policy then
      match result.policy with
      | some p => [("RateLimit-Policy", p)]
      | none => []
    else [])


/-! ## Helper lemmas -/

theorem tbRefill_of_not_forward {capacity r : ℚ} {s : TBState} {now : ℤ}
    (h : now ≤ s.last) : tbRefill capacity r s now = s := by
  unfold tbRefill
  rw [if_neg (by omega)]

theorem tbRefill_last {capacity r : ℚ} (s : TBState) (now : ℤ)
    (h : now ≤ s.last) : (tbRefill capacity r s now).last = s.last := by
  rw [tbRefill_of_not_forward h]

theorem tbRefill_le_capacity {capacity r : ℚ} {s : TBState} {now : ℤ}
    (h : s.tokens ≤ capacity) : (tbRefill capacity r s now).tokens ≤ capacity := by
  unfold tbRefill
  split
  · exact min_le_left _ _
  · exact h

theorem tbRefill_nonneg {capacity r : ℚ} {s : TBState} {now : ℤ}
    (hs : 0 ≤ s.tokens) (hcap : 0 ≤ capacity) (hr : 0 ≤ r) :
    0 ≤ (tbRefill capacity r s now).tokens := by
  unfold tbRefill
  split
  · next hlt =>
    refine le_min hcap (add_nonneg hs (mul_nonneg ?_ hr))
    have : (0 : ℤ) ≤ now - s.last := by omega
    exact_mod_cast this
  · exact hs

theorem tokenBucketCompute_state (capacity rate : ℚ) (state : Option TBState)
    (cost : ℚ) (now : ℤ) :
    (tokenBucketCompute capacity rate state cost now).state =
      (if cost ≤ (tbRefill capacity (rate / 1000) (state.getD ⟨capacity, now⟩) now).tokens then
        ⟨(tbRefill capacity (rate / 1000) (state.getD ⟨capacity, now⟩) now).tokens - cost,
         (tbRefill capacity (rate / 1000) (state.getD ⟨capacity, now⟩) now).last⟩
      else tbRefill capacity (rate / 1000) (state.getD ⟨capacity, now⟩) now) := by
  unfold tokenBucketCompute
  by_cases h : cost ≤ (tbRefill capacity (rate / 1000) (state.getD ⟨capacity, now⟩) now).tokens <;>
    simp [ge_iff_le, h]

theorem tokenBucketCompute_allowed (capacity rate : ℚ) (state : Option TBState)
    (cost : ℚ) (now : ℤ) :
    (tokenBucketCompute capacity rate state cost now).result.allowed =
      decide (cost ≤
        (tbRefill capacity (rate / 1000) (state.getD ⟨capacity, now⟩) now).tokens) := by
  unfold tokenBucketCompute
  simp [ge_iff_le]

theorem tokenBucketCompute_retryAfter (capacity rate : ℚ) (state : Option TBState)
    (cost : ℚ) (now : ℤ)
    (hdeny : ¬ cost ≤ (tbRefill capacity (rate / 1000) (state.getD ⟨capacity, now⟩) now).tokens)
    (hrate : 0 < rate / 1000) :
    (tokenBucketCompute capacity rate state cost now).result.retryAfter =
      some ⌈(cost - (tbRefill capacity (rate / 1000) (state.getD ⟨capacity, now⟩) now).tokens) /
        (rate / 1000)⌉ := by
  unfold tokenBucketCompute
  simp [ge_iff_le, hdeny, hrate]

theorem swShift_none (windowMs now : ℤ) :
    swShift windowMs none now =
      ⟨curWindowStart windowMs now, 0, curWindowStart windowMs now - windowMs, 0⟩ := by
  unfold swShift
  simp

theorem swShift_same_window {windowMs : ℤ} {s : SWState} {now : ℤ}
    (h : s.windowStart = curWindowStart windowMs now) :
    swShift windowMs (some s) now = s := by
  unfold swShift
  simp [h]

theorem swShift_noncontiguous {windowMs : ℤ} {s : SWState} {now : ℤ}
    (h1 : s.windowStart ≠ curWindowStart windowMs now)
    (h2 : s.windowStart ≠ curWindowStart windowMs now - windowMs) :
    swShift windowMs (some s) now = swShift windowMs none now := by
  unfold swShift
  simp [h1, h2]

theorem swEffective_prevCount_zero (windowMs : ℤ) (s : SWState) (now : ℤ)
    (h : s.prevCount = 0) : swEffective windowMs s now = s.count := by
  unfold swEffective
  split <;> simp [h]

theorem swShift_counts_nonneg (windowMs : ℤ) (state : Option SWState) (now : ℤ)
    (hinv : ∀ s, state = some s → 0 ≤ s.count ∧ 0 ≤ s.prevCount) :
    0 ≤ (swShift windowMs state now).count ∧
    0 ≤ (swShift windowMs state now).prevCount := by
  unfold swShift
  cases state with
  | none => simp
  | some s =>
      have h := hinv s rfl
      simp only [Option.getD_some]
      split
      · refine ⟨le_refl 0, ?_⟩
        split
        · exact h.1
        · exact le_refl 0
      · exact h

theorem slidingWindowCompute_state (limit windowMs : ℤ) (state : Option SWState)
    (cost : ℚ) (now : ℤ) :
    (slidingWindowCompute limit windowMs state cost now).state =
      { swShift windowMs state now with
        count := (swShift windowMs state now).count + cost } :=
  rfl

theorem slidingWindowCompute_allowed (limit windowMs : ℤ) (state : Option SWState)
    (cost : ℚ) (now : ℤ) :
    (slidingWindowCompute limit windowMs state cost now).result.allowed =
      decide (swEffective windowMs
        { swShift windowMs state now with
          count := (swShift windowMs state now).count + cost } now ≤ (limit : ℚ)) :=
  rfl

theorem slidingWindowCompute_remaining (limit windowMs : ℤ) (state : Option SWState)
    (cost : ℚ) (now : ℤ) :
    (slidingWindowCompute limit windowMs state cost now).result.remaining =
      max 0 ⌊(limit : ℚ) - swEffective windowMs
        { swShift windowMs state now with
          count := (swShift windowMs state now).count + cost } now⌋ :=
  rfl

/-! ## Claim C1 — orchestrator cost normalization -/

/-- C1 (counterexample): the cost passed to the algorithm does NOT equal
`max(0, floor(costFn(context)))` in general. A cost function returning `0`
yields cost `1` (the `|| 1` in `Math.max(0, Math.floor(costFn(ctx)) || 1)`
treats a floored value of `0` as falsy), where the claimed formula yields
`0`; and a cost function returning `+Infinity` (a non-finite value) yields
`+Infinity`, not the claimed `1`. -/
theorem cost_normalization_counterexample :
    normalizeCost (JSNum.num 0) = JSNum.num 1 ∧
    specNormalizeCost (JSNum.num 0) = JSNum.num 0 ∧
    normalizeCost JSNum.posInf = JSNum.posInf ∧
    specNormalizeCost JSNum.posInf = JSNum.num 1 := by
  refine ⟨by decide, ?_, by decide, by decide⟩
  show JSNum.num ((max 0 ⌊(0 : ℚ)⌋ : ℤ) : ℚ) = JSNum.num 0
  norm_num

/-- C1 (amended): the cost passed to the algorithm is
`max(0, floor(costFn(context)) || 1)`: it equals
`max(0, floor(costFn(context)))` whenever `floor(costFn(context))` is a
nonzero finite value or `±Infinity`, but a floored value of `0` or `NaN` is
replaced by `1` before the `max` (so a cost function returning `0` yields
cost `1`, and `+Infinity` propagates). In particular `-5` yields `0`, `2.7`
yields `2` and `NaN` yields `1`, as the claim states. -/
theorem cost_normalization_amended :
    (∀ c : JSNum, normalizeCost c =
      if jsFloor c = JSNum.num 0 ∨ jsFloor c = JSNum.nan then JSNum.num 1
      else jsMax (JSNum.num 0) (jsFloor c)) ∧
    normalizeCost (JSNum.num (-5)) = JSNum.num 0 ∧
    normalizeCost (JSNum.num (27 / 10)) = JSNum.num 2 ∧
    normalizeCost JSNum.nan = JSNum.num 1 := by
  refine ⟨?_, by decide, ?_, by decide⟩
  · intro c
    cases c with
    | nan => decide
    | posInf => decide
    | negInf => decide
    | num q =>
        by_cases h : ⌊q⌋ = 0
        · simp [normalizeCost, jsFloor, jsOr, jsTruthy, jsMax, h]
        · have hq : ((⌊q⌋ : ℚ)) ≠ 0 := by exact_mod_cast h
          simp [normalizeCost, jsFloor, jsOr, jsTruthy, jsMax, h, hq]
  · norm_num [normalizeCost, jsFloor, jsOr, jsTruthy, jsMax]

/-! ## Claim C2 — tolerance of non-forward time -/

/-- C2 (counterexample): Windowed-Decay does NOT treat every non-forward
time delta as "no decay". With `limit = 3, windowMs = 1000`, the stored
state `{windowStart := 1000, count := 3, prevStart := 0, prevCount := 0}`
has its quota exhausted: a cost-1 request at `now = 1000` (the stored
window) is denied. Yet the same request at `now = 999` — a time NOT ahead
of the state's last advance — triggers the rollover shift backwards, wipes
both counters, and is allowed with `remaining = 2`, granting more capacity
than the state reflected. -/
theorem nonforward_time_counterexample :
    (slidingWindowCompute 3 1000 (some ⟨1000, 3, 0, 0⟩) 1 1000).result.allowed
        = false ∧
    (slidingWindowCompute 3 1000 (some ⟨1000, 3, 0, 0⟩) 1 999).result.allowed
        = true ∧
    (slidingWindowCompute 3 1000 (some ⟨1000, 3, 0, 0⟩) 1 999).result.remaining
        = 2 ∧
    (slidingWindowCompute 3 1000 (some ⟨1000, 3, 0, 0⟩) 1 999).state.count = 1 := by
  refine ⟨?_, ?_, ?_, ?_⟩ <;>
    norm_num [slidingWindowCompute, swShift, swEffective, swWeight, curWindowStart]

/-- C2 (amended): the Token Bucket half of the claim holds: whenever
`now <= lastRefillAt`, refill is skipped entirely — `lastRefillAt`
is unchanged and (for nonnegative cost) the bucket never ends with more
tokens than it had. Windowed-Decay performs no shift and no decay only as
long as `now` stays inside the stored window (`curWindowStart` equals the
stored `windowStart`): then the new state is the old state with `cost`
added to `count`. A `now` that falls in an EARLIER window than the stored
one re-triggers the rollover shift and resets the counters (see the
counterexample). -/
theorem nonforward_time_amended :
    (∀ (capacity rate cost : ℚ) (s : TBState) (now : ℤ),
      now ≤ s.last → 0 ≤ cost →
      (tokenBucketCompute capacity rate (some s) cost now).state.last = s.last ∧
      (tokenBucketCompute capacity rate (some s) cost now).state.tokens
        ≤ s.tokens) ∧
    (∀ (limit windowMs : ℤ) (cost : ℚ) (s : SWState) (now : ℤ),
      s.windowStart = curWindowStart windowMs now →
      (slidingWindowCompute limit windowMs (some s) cost now).state =
        { s with count := s.count + cost }) := by
  constructor
  · intro capacity rate cost s now hle hcost
    rw [tokenBucketCompute_state]
    simp only [Option.getD_some, tbRefill_of_not_forward hle]
    split
    · exact ⟨rfl, by simp only [TBState.tokens]; linarith⟩
    · exact ⟨rfl, le_refl _⟩
  · intro limit windowMs cost s now h
    rw [slidingWindowCompute_state, swShift_same_window h]

/-- C2 (witness): the amended theorem applied at concrete inputs. -/
theorem nonforward_time_amended_witness :
    ((50 : ℤ) ≤ (100 : ℤ) ∧ (0 : ℚ) ≤ 1 ∧
      (tokenBucketCompute 5 1 (some ⟨3, 100⟩) 1 50).state.last = 100 ∧
      (tokenBucketCompute 5 1 (some ⟨3, 100⟩) 1 50).state.tokens ≤ 3) ∧
    ((0 : ℤ) = curWindowStart 1000 0 ∧
      (slidingWindowCompute 3 1000 (some ⟨0, 2, -1000, 5⟩) 1 0).state =
        ⟨0, 2 + 1, -1000, 5⟩) := by
  have h1 : (50 : ℤ) ≤ 100 := by decide
  have h2 : (0 : ℚ) ≤ 1 := by decide
  have h3 : (0 : ℤ) = curWindowStart 1000 0 := by simp [curWindowStart]
  refine ⟨⟨h1, h2, ?_, ?_⟩, h3, ?_⟩
  · exact (nonforward_time_amended.1 5 1 1 ⟨3, 100⟩ 50 h1 h2).1
  · exact (nonforward_time_amended.1 5 1 1 ⟨3, 100⟩ 50 h1 h2).2
  · exact nonforward_time_amended.2 3 1000 1 ⟨0, 2, -1000, 5⟩ 0 h3

/-! ## Claim C3 — state invariants -/

/-- C3: every `compute` call of either algorithm preserves the state
invariant (for nonnegative cost and a valid configuration): Token Bucket
tokens stay within `[0, capacity]` — the refill is capped at `capacity` and
consumption never exceeds the available tokens — and Windowed-Decay `count`
and `prevCount` never become negative. The invariant is also established
for an absent prior state. -/
theorem state_invariant_preserved :
    (∀ (capacity rate cost : ℚ) (state : Option TBState) (now : ℤ),
      0 ≤ cost → 0 ≤ capacity → 0 ≤ rate →
      (∀ s, state = some s → 0 ≤ s.tokens ∧ s.tokens ≤ capacity) →
      0 ≤ (tokenBucketCompute capacity rate state cost now).state.tokens ∧
      (tokenBucketCompute capacity rate state cost now).state.tokens ≤ capacity) ∧
    (∀ (limit windowMs : ℤ) (cost : ℚ) (state : Option SWState) (now : ℤ),
      0 ≤ cost →
      (∀ s, state = some s → 0 ≤ s.count ∧ 0 ≤ s.prevCount) →
      0 ≤ (slidingWindowCompute limit windowMs state cost now).state.count ∧
      0 ≤ (slidingWindowCompute limit windowMs state cost now).state.prevCount) := by
  constructor
  · intro capacity rate cost state now hcost hcap hrate hinv
    rw [tokenBucketCompute_state]
    have hr : 0 ≤ rate / 1000 := by positivity
    have h0 : 0 ≤ (state.getD ⟨capacity, now⟩).tokens ∧
        (state.getD ⟨capacity, now⟩).tokens ≤ capacity := by
      cases state with
      | none => exact ⟨hcap, le_refl _⟩
      | some s => exact hinv s rfl
    have h1 := @tbRefill_nonneg capacity (rate / 1000) (state.getD ⟨capacity, now⟩)
      now h0.1 hcap hr
    have h2 := @tbRefill_le_capacity capacity (rate / 1000) (state.getD ⟨capacity, now⟩)
      now h0.2
    by_cases hadm : cost ≤
        (tbRefill capacity (rate / 1000) (state.getD ⟨capacity, now⟩) now).tokens
    · rw [if_pos hadm]
      constructor
      · show 0 ≤
          (tbRefill capacity (rate / 1000) (state.getD ⟨capacity, now⟩) now).tokens - cost
        linarith
      · show (tbRefill capacity (rate / 1000) (state.getD ⟨capacity, now⟩) now).tokens
            - cost ≤ capacity
        linarith
    · rw [if_neg hadm]
      exact ⟨h1, h2⟩
  · intro limit windowMs cost state now hcost hinv
    rw [slidingWindowCompute_state]
    have h := swShift_counts_nonneg windowMs state now hinv
    constructor
    · show 0 ≤ (swShift windowMs state now).count + cost
      linarith [h.1]
    · show 0 ≤ (swShift windowMs state now).prevCount
      exact h.2

/-- C3 (witness): the invariant-preservation theorem applied at concrete
inputs for both algorithms. -/
theorem state_invariant_preserved_witness :
    ((0 : ℚ) ≤ 2 ∧ (0 : ℚ) ≤ 10 ∧ (0 : ℚ) ≤ 1 ∧
      (0 ≤ (tokenBucketCompute 10 1 (some ⟨4, 0⟩) 2 500).state.tokens ∧
       (tokenBucketCompute 10 1 (some ⟨4, 0⟩) 2 500).state.tokens ≤ 10)) ∧
    ((0 : ℚ) ≤ 2 ∧
      (0 ≤ (slidingWindowCompute 5 1000 (some ⟨0, 1, -1000, 3⟩) 2 100).state.count ∧
       0 ≤ (slidingWindowCompute 5 1000 (some ⟨0, 1, -1000, 3⟩) 2 100).state.prevCount)) := by
  have hc : (0 : ℚ) ≤ 2 := by decide
  have hcap : (0 : ℚ) ≤ 10 := by decide
  have hr : (0 : ℚ) ≤ 1 := by decide
  refine ⟨⟨hc, hcap, hr, ?_⟩, hc, ?_⟩
  · exact state_invariant_preserved.1 10 1 2 (some ⟨4, 0⟩) 500 hc hcap hr
      (fun s hs => by cases hs; exact ⟨by decide, by decide⟩)
  · exact state_invariant_preserved.2 5 1000 2 (some ⟨0, 1, -1000, 3⟩) 100 hc
      (fun s hs => by cases hs; exact ⟨by decide, by decide⟩)

/-! ## Claim C4 — zero-cost requests -/

/-- C4 (counterexample): a zero-cost request CAN be denied. Windowed-Decay
with `limit = 3, windowMs = 1000` and stored state
`{windowStart := 0, count := 4, prevStart := -1000, prevCount := 0}` (the
state reached by four cost-1 requests at `now = 0`, cf. the C6 theorem)
denies a `cost = 0` request at `now = 0`: admission compares
`effective <= limit` regardless of the request's own cost, and the
counter already exceeds the limit. -/
theorem zero_cost_counterexample :
    (slidingWindowCompute 3 1000 (some ⟨0, 4, -1000, 0⟩) 0 0).result.allowed
      = false := by
  norm_num [slidingWindowCompute, swShift, swEffective, swWeight, curWindowStart]

/-- C4 (amended): a zero-cost request is never denied by the Token Bucket
(for a valid configuration and a state satisfying the invariant), and never
denied by Windowed-Decay at a fresh key; but Windowed-Decay can deny a
zero-cost request when the stored window counters already put `effective`
over the limit (see the counterexample). -/
theorem zero_cost_amended :
    (∀ (capacity rate : ℚ) (state : Option TBState) (now : ℤ),
      0 ≤ capacity → 0 ≤ rate →
      (∀ s, state = some s → 0 ≤ s.tokens) →
      (tokenBucketCompute capacity rate state 0 now).result.allowed = true) ∧
    (∀ (limit windowMs now : ℤ), 0 ≤ limit →
      (slidingWindowCompute limit windowMs none 0 now).result.allowed = true) := by
  constructor
  · intro capacity rate state now hcap hrate hinv
    rw [tokenBucketCompute_allowed]
    simp only [decide_eq_true_eq]
    have h0 : 0 ≤ (state.getD ⟨capacity, now⟩).tokens := by
      cases state with
      | none => exact hcap
      | some s => exact hinv s rfl
    exact tbRefill_nonneg h0 hcap (by positivity)
  · intro limit windowMs now hlim
    rw [slidingWindowCompute_allowed, swShift_none,
      swEffective_prevCount_zero _ _ _ rfl]
    simp only [decide_eq_true_eq]
    have : (0 : ℚ) ≤ (limit : ℚ) := by exact_mod_cast hlim
    linarith

/-- C4 (witness): the amended theorem applied at concrete inputs. -/
theorem zero_cost_amended_witness :
    ((0 : ℚ) ≤ 3 ∧ (0 : ℚ) ≤ 1 ∧
      (tokenBucketCompute 3 1 (some ⟨0, 0⟩) 0 10).result.allowed = true) ∧
    ((0 : ℤ) ≤ 3 ∧
      (slidingWindowCompute 3 1000 none 0 7).result.allowed = true) := by
  have hcap : (0 : ℚ) ≤ 3 := by decide
  have hr : (0 : ℚ) ≤ 1 := by decide
  have hl : (0 : ℤ) ≤ 3 := by decide
  exact ⟨⟨hcap, hr,
      zero_cost_amended.1 3 1 (some ⟨0, 0⟩) 10 hcap hr
        (fun s hs => by cases hs; exact le_refl 0)⟩,
    hl, zero_cost_amended.2 3 1000 7 hl⟩

/-! ## Claim C5 — Token Bucket admission and denial -/

/-- C5: after the refill step, if the bucket holds at least `cost` tokens
the request is allowed and exactly `cost` is subtracted; otherwise the
request is denied, the post-refill state is left unchanged (denied cost is
never partially consumed) and `retryAfter = ceil((cost - tokens) /
refillPerMs)` milliseconds; in particular, with `capacity = 1` and
`refillRatePerSec = 2`, a cost-2 request at a fresh key is denied with
`retryAfter = 500` and an untouched full bucket. -/
theorem token_bucket_admission :
    (∀ (capacity rate cost : ℚ) (state : Option TBState) (now : ℤ),
      (cost ≤ (tbRefill capacity (rate / 1000) (state.getD ⟨capacity, now⟩) now).tokens →
        (tokenBucketCompute capacity rate state cost now).result.allowed = true ∧
        (tokenBucketCompute capacity rate state cost now).state.tokens =
          (tbRefill capacity (rate / 1000) (state.getD ⟨capacity, now⟩) now).tokens
            - cost) ∧
      (¬ cost ≤ (tbRefill capacity (rate / 1000) (state.getD ⟨capacity, now⟩) now).tokens →
        (tokenBucketCompute capacity rate state cost now).result.allowed = false ∧
        (tokenBucketCompute capacity rate state cost now).state =
          tbRefill capacity (rate / 1000) (state.getD ⟨capacity, now⟩) now ∧
        (0 < rate →
          (tokenBucketCompute capacity rate state cost now).result.retryAfter =
            some ⌈(cost -
              (tbRefill capacity (rate / 1000) (state.getD ⟨capacity, now⟩) now).tokens)
                / (rate / 1000)⌉))) ∧
    ((tokenBucketCompute 1 2 none 2 0).result.allowed = false ∧
     (tokenBucketCompute 1 2 none 2 0).state.tokens = 1 ∧
     (tokenBucketCompute 1 2 none 2 0).result.retryAfter = some 500) := by
  refine ⟨?_, ?_, ?_, ?_⟩
  · intro capacity rate cost state now
    constructor
    · intro h
      constructor
      · rw [tokenBucketCompute_allowed]
        simp [h]
      · rw [tokenBucketCompute_state, if_pos h]
    · intro h
      refine ⟨?_, ?_, ?_⟩
      · rw [tokenBucketCompute_allowed]
        simp [h]
      · rw [tokenBucketCompute_state, if_neg h]
      · intro hrate
        exact tokenBucketCompute_retryAfter capacity rate state cost now h
          (by positivity)
  · norm_num [tokenBucketCompute, tbRefill]
  · norm_num [tokenBucketCompute, tbRefill]
  · norm_num [tokenBucketCompute, tbRefill]

/-- C5 (witness): both branches of the admission theorem at concrete
inputs. -/
theorem token_bucket_admission_witness :
    ((1 : ℚ) ≤ (tbRefill 5 (1 / 1000) ((some ⟨3, 100⟩ : Option TBState).getD ⟨5, 100⟩) 100).tokens ∧
      (tokenBucketCompute 5 1 (some ⟨3, 100⟩) 1 100).result.allowed = true) ∧
    (¬ (2 : ℚ) ≤ (tbRefill 1 (2 / 1000) ((none : Option TBState).getD ⟨1, 0⟩) 0).tokens ∧
      (0 : ℚ) < 2 ∧
      (tokenBucketCompute 1 2 none 2 0).result.allowed = false) := by
  have h1 : (1 : ℚ) ≤
      (tbRefill 5 (1 / 1000) ((some ⟨3, 100⟩ : Option TBState).getD ⟨5, 100⟩) 100).tokens := by
    rw [tbRefill_of_not_forward (by decide)]
    decide
  have h2 : ¬ (2 : ℚ) ≤
      (tbRefill 1 (2 / 1000) ((none : Option TBState).getD ⟨1, 0⟩) 0).tokens := by
    rw [tbRefill_of_not_forward (by decide)]
    decide
  exact ⟨⟨h1, ((token_bucket_admission.1 5 1 1 (some ⟨3, 100⟩) 100).1 h1).1⟩,
    h2, by decide, ((token_bucket_admission.1 1 2 2 none 0).2 h2).1⟩

theorem slidingWindowCompute_same_window_eval (limit windowMs : ℤ) (cost : ℚ)
    (s : SWState) (now : ℤ) (h : s.windowStart = curWindowStart windowMs now)
    (hp : s.prevCount = 0) :
    (slidingWindowCompute limit windowMs (some s) cost now).state =
      { s with count := s.count + cost } ∧
    (slidingWindowCompute limit windowMs (some s) cost now).result.allowed =
      decide (s.count + cost ≤ (limit : ℚ)) := by
  constructor
  · rw [slidingWindowCompute_state, swShift_same_window h]
  · rw [slidingWindowCompute_allowed, swShift_same_window h,
      swEffective_prevCount_zero]
    exact hp

theorem slidingWindowCompute_fresh_eval (limit windowMs : ℤ) (cost : ℚ) (now : ℤ) :
    (slidingWindowCompute limit windowMs none cost now).state =
      ⟨curWindowStart windowMs now, 0 + cost,
        curWindowStart windowMs now - windowMs, 0⟩ ∧
    (slidingWindowCompute limit windowMs none cost now).result.allowed =
      decide (0 + cost ≤ (limit : ℚ)) ∧
    (slidingWindowCompute limit windowMs none cost now).result.remaining =
      max 0 ⌊(limit : ℚ) - (0 + cost)⌋ := by
  refine ⟨?_, ?_, ?_⟩
  · rw [slidingWindowCompute_state, swShift_none]
  · rw [slidingWindowCompute_allowed, swShift_none, swEffective_prevCount_zero]
    rfl
  · rw [slidingWindowCompute_remaining, swShift_none, swEffective_prevCount_zero]
    rfl

/-! ## Claim C6 — Windowed-Decay counts attempted cost, limit exhaustion -/

/-- C6: with `limit = 3, windowMs = 1000`, four same-key cost-1 requests
issued at the same instant (any instant) are allowed, allowed, allowed,
denied — and the denied fourth request's cost is still added to the
window's counter, which ends at `4`. -/
theorem sliding_window_limit_exhaustion :
    ∀ now : ℤ,
      (slidingWindowCompute 3 1000 (swSeq 3 1000 1 now 0) 1 now).result.allowed
        = true ∧
      (slidingWindowCompute 3 1000 (swSeq 3 1000 1 now 1) 1 now).result.allowed
        = true ∧
      (slidingWindowCompute 3 1000 (swSeq 3 1000 1 now 2) 1 now).result.allowed
        = true ∧
      (slidingWindowCompute 3 1000 (swSeq 3 1000 1 now 3) 1 now).result.allowed
        = false ∧
      (slidingWindowCompute 3 1000 (swSeq 3 1000 1 now 3) 1 now).state.count
        = 4 := by
  intro now
  have e1 : swSeq 3 1000 1 now 1 =
      some ⟨curWindowStart 1000 now, 0 + 1, curWindowStart 1000 now - 1000, 0⟩ := by
    show some (slidingWindowCompute 3 1000 none 1 now).state = _
    rw [(slidingWindowCompute_fresh_eval 3 1000 1 now).1]
  have e2 : swSeq 3 1000 1 now 2 =
      some ⟨curWindowStart 1000 now, 0 + 1 + 1, curWindowStart 1000 now - 1000, 0⟩ := by
    show some (slidingWindowCompute 3 1000 (swSeq 3 1000 1 now 1) 1 now).state = _
    rw [e1, (slidingWindowCompute_same_window_eval 3 1000 1 _ now rfl rfl).1]
  have e3 : swSeq 3 1000 1 now 3 =
      some ⟨curWindowStart 1000 now, 0 + 1 + 1 + 1, curWindowStart 1000 now - 1000, 0⟩ := by
    show some (slidingWindowCompute 3 1000 (swSeq 3 1000 1 now 2) 1 now).state = _
    rw [e2, (slidingWindowCompute_same_window_eval 3 1000 1 _ now rfl rfl).1]
  refine ⟨?_, ?_, ?_, ?_, ?_⟩
  · show (slidingWindowCompute 3 1000 none 1 now).result.allowed = true
    rw [(slidingWindowCompute_fresh_eval 3 1000 1 now).2.1]
    norm_num
  · rw [e1, (slidingWindowCompute_same_window_eval 3 1000 1 _ now rfl rfl).2]
    norm_num
  · rw [e2, (slidingWindowCompute_same_window_eval 3 1000 1 _ now rfl rfl).2]
    norm_num
  · rw [e3, (slidingWindowCompute_same_window_eval 3 1000 1 _ now rfl rfl).2]
    norm_num
  · rw [e3, (slidingWindowCompute_same_window_eval 3 1000 1 _ now rfl rfl).1]
    norm_num

theorem curWindowStart_1000_add_5000 (t : ℤ) :
    curWindowStart 1000 (t + 5000) = curWindowStart 1000 t + 5000 := by
  unfold curWindowStart
  have h : ((t + 5000 : ℤ) : ℚ) / ((1000 : ℤ) : ℚ) =
      (t : ℚ) / ((1000 : ℤ) : ℚ) + ((5 : ℤ) : ℚ) := by
    push_cast
    ring
  rw [h, Int.floor_add_int]
  ring

/-! ## Claim C7 — non-contiguous windows carry zero weight -/

/-- C7: whenever the stored `windowStart` is neither the current window nor
the immediately-preceding one, the rollover shift resets `prevCount` to `0`
and the call behaves exactly like a fresh-key call; with
`limit = 5, windowMs = 1000`, one request at `t0` followed by one at
`t0 + 5000` yields `allowed = true` with `remaining = 4`, uninfluenced by
the earlier request. -/
theorem noncontiguous_window_reset :
    (∀ (limit windowMs : ℤ) (cost : ℚ) (s : SWState) (now : ℤ),
      s.windowStart ≠ curWindowStart windowMs now →
      s.windowStart ≠ curWindowStart windowMs now - windowMs →
      (slidingWindowCompute limit windowMs (some s) cost now).state.prevCount = 0 ∧
      slidingWindowCompute limit windowMs (some s) cost now =
        slidingWindowCompute limit windowMs none cost now) ∧
    (∀ t0 : ℤ,
      (slidingWindowCompute 5 1000
        (some (slidingWindowCompute 5 1000 none 1 t0).state) 1
        (t0 + 5000)).result.allowed = true ∧
      (slidingWindowCompute 5 1000
        (some (slidingWindowCompute 5 1000 none 1 t0).state) 1
        (t0 + 5000)).result.remaining = 4) := by
  have hA : ∀ (limit windowMs : ℤ) (cost : ℚ) (s : SWState) (now : ℤ),
      s.windowStart ≠ curWindowStart windowMs now →
      s.windowStart ≠ curWindowStart windowMs now - windowMs →
      (slidingWindowCompute limit windowMs (some s) cost now).state.prevCount = 0 ∧
      slidingWindowCompute limit windowMs (some s) cost now =
        slidingWindowCompute limit windowMs none cost now := by
    intro limit windowMs cost s now h1 h2
    constructor
    · rw [slidingWindowCompute_state, swShift_noncontiguous h1 h2, swShift_none]
    · unfold slidingWindowCompute
      rw [swShift_noncontiguous h1 h2]
  refine ⟨hA, ?_⟩
  intro t0
  have hs : (slidingWindowCompute 5 1000 none 1 t0).state =
      ⟨curWindowStart 1000 t0, 0 + 1, curWindowStart 1000 t0 - 1000, 0⟩ :=
    (slidingWindowCompute_fresh_eval 5 1000 1 t0).1
  have hcur := curWindowStart_1000_add_5000 t0
  have h1 : ((⟨curWindowStart 1000 t0, 0 + 1, curWindowStart 1000 t0 - 1000, 0⟩ :
      SWState)).windowStart ≠ curWindowStart 1000 (t0 + 5000) := by
    show curWindowStart 1000 t0 ≠ _
    rw [hcur]
    omega
  have h2 : ((⟨curWindowStart 1000 t0, 0 + 1, curWindowStart 1000 t0 - 1000, 0⟩ :
      SWState)).windowStart ≠ curWindowStart 1000 (t0 + 5000) - 1000 := by
    show curWindowStart 1000 t0 ≠ _
    rw [hcur]
    omega
  rw [hs, (hA 5 1000 1 _ (t0 + 5000) h1 h2).2]
  constructor
  · rw [(slidingWindowCompute_fresh_eval 5 1000 1 (t0 + 5000)).2.1]
    norm_num
  · rw [(slidingWindowCompute_fresh_eval 5 1000 1 (t0 + 5000)).2.2]
    norm_num

/-- C7 (witness): the non-contiguous-rollover theorem applied at concrete
inputs. -/
theorem noncontiguous_window_reset_witness :
    ((2000 : ℤ) ≠ curWindowStart 1000 0 ∧
     (2000 : ℤ) ≠ curWindowStart 1000 0 - 1000 ∧
     slidingWindowCompute 5 1000 (some ⟨2000, 3, 1000, 0⟩) 1 0 =
       slidingWindowCompute 5 1000 none 1 0) := by
  have h1 : ((⟨2000, 3, 1000, 0⟩ : SWState)).windowStart ≠ curWindowStart 1000 0 := by
    simp [curWindowStart]
  have h2 : ((⟨2000, 3, 1000, 0⟩ : SWState)).windowStart ≠
      curWindowStart 1000 0 - 1000 := by
    simp [curWindowStart]
  exact ⟨h1, h2, (noncontiguous_window_reset.1 5 1000 1 ⟨2000, 3, 1000, 0⟩ 0 h1 h2).2⟩

/-! ## Claim C8 — in-memory store round-trip and expiry -/

/-- C8: `save(k, s, ttl)` at time `t1` followed by `load(k)` at time `t2`
returns `s` exactly as long as `t1 + ttl` has not yet passed
(`t2 < t1 + ttl`) and absent once it has (`t1 + ttl <= t2` — the source
treats an entry as expired at `expiresAt <= now`); a save with `ttl <= 0`
is already expired for every subsequent load: absent, never retained and
never an error. -/
theorem memory_store_roundtrip :
    (∀ (σ : Type) (m : MemMap σ) (k : String) (s : σ) (ttl t1 t2 : ℤ),
      (msLoad (msSave m k s ttl t1) k t2).1 =
        if t1 + ttl ≤ t2 then none else some s) ∧
    (∀ (σ : Type) (m : MemMap σ) (k : String) (s : σ) (ttl t1 t2 : ℤ),
      ttl ≤ 0 → t1 ≤ t2 → (msLoad (msSave m k s ttl t1) k t2).1 = none) := by
  have hfst : ∀ (σ : Type) (m : MemMap σ) (k : String) (s : σ) (ttl t1 t2 : ℤ),
      (msLoad (msSave m k s ttl t1) k t2).1 =
        if t1 + ttl ≤ t2 then none else some s := by
    intro σ m k s ttl t1 t2
    by_cases h : t1 + ttl ≤ t2 <;> simp [msLoad, msSave, cleanup, h]
  refine ⟨hfst, ?_⟩
  intro σ m k s ttl t1 t2 httl hle
  rw [hfst, if_pos (by omega)]

/-- C8 (witness): the round-trip theorem applied at concrete inputs: a
`ttl = 0` save is invisible to a load at the very same instant. -/
theorem memory_store_roundtrip_witness :
    (0 : ℤ) ≤ 0 ∧ (100 : ℤ) ≤ 100 ∧
    (msLoad (msSave (msEmpty (σ := ℕ)) "k" 7 0 100) "k" 100).1 = none :=
  ⟨by decide, by decide,
    memory_store_roundtrip.2 ℕ msEmpty "k" 7 0 100 100 (by decide) (by decide)⟩

/-! ## Claim C9 — header families -/

/-- C9 (counterexample): with only the `policy` family enabled
(`standard` and `legacy` disabled), a decision carrying
`retryAfter = 5000` produces only the `RateLimit-Policy` header: no
`Retry-After` header is emitted although a family is enabled and
`retryAfter` is present — `Retry-After` is only written inside the
standard and legacy branches. -/
theorem retry_after_counterexample :
    buildHeaders ⟨false, 100, 0, 1234567890, some 5000, 0, some "100;w=60"⟩
        ⟨some false, some false, some true⟩ =
      [("RateLimit-Policy", "100;w=60")] ∧
    (buildHeaders ⟨false, 100, 0, 1234567890, some 5000, 0, some "100;w=60"⟩
        ⟨some false, some false, some true⟩).lookup "Retry-After" = none := by
  constructor <;> rfl

/-- C9 (amended): a disabled family emits none of its headers; a
configuration with all three families disabled emits no headers at all;
whenever the decision carries a `retryAfter` and the STANDARD or LEGACY
family is enabled, a `Retry-After` header equal to `ceil(retryAfter/1000)`
whole seconds is included — but with only the `policy` family enabled no
`Retry-After` is emitted. -/
theorem headers_families_amended :
    (∀ (r : HLimitResult) (opts : HeadersOptions),
      opts.standard.getD true = false →
      (buildHeaders r opts).lookup "RateLimit-Limit" = none ∧
      (buildHeaders r opts).lookup "RateLimit-Remaining" = none ∧
      (buildHeaders r opts).lookup "RateLimit-Reset" = none) ∧
    (∀ (r : HLimitResult) (opts : HeadersOptions),
      opts.legacy.getD false = false →
      (buildHeaders r opts).lookup "X-RateLimit-Limit" = none ∧
      (buildHeaders r opts).lookup "X-RateLimit-Remaining" = none ∧
      (buildHeaders r opts).lookup "X-RateLimit-Reset" = none) ∧
    (∀ (r : HLimitResult) (opts : HeadersOptions),
      opts.policy.getD false = false →
      (buildHeaders r opts).lookup "RateLimit-Policy" = none) ∧
    (∀ r : HLimitResult,
      buildHeaders r ⟨some false, some false, some false⟩ = []) ∧
    (∀ (r : HLimitResult) (opts : HeadersOptions) (ra : ℚ),
      r.retryAfter = some ra →
      (opts.standard.getD true = true ∨ opts.legacy.getD false = true) →
      (buildHeaders r opts).lookup "Retry-After" =
        some (toString ⌈ra / 1000⌉)) ∧
    (∀ (r : HLimitResult) (ra : ℚ),
      r.retryAfter = some ra →
      (buildHeaders r ⟨some false, some false, some true⟩).lookup "Retry-After"
        = none) := by
  refine ⟨?_, ?_, ?_, ?_, ?_, ?_⟩
  · intro r opts h
    cases hl : opts.legacy.getD false <;>
      cases hp : opts.policy.getD false <;>
      cases hr : r.retryAfter <;>
      cases hpol : r.policy <;>
      simp [buildHeaders, h, hl, hp, hr, hpol, List.lookup]
  · intro r opts h
    cases hs : opts.standard.getD true <;>
      cases hp : opts.policy.getD false <;>
      cases hr : r.retryAfter <;>
      cases hpol : r.policy <;>
      simp [buildHeaders, h, hs, hp, hr, hpol, List.lookup]
  · intro r opts h
    cases hs : opts.standard.getD true <;>
      cases hl : opts.legacy.getD false <;>
      cases hr : r.retryAfter <;>
      simp [buildHeaders, h, hs, hl, hr, List.lookup]
  · intro r
    rfl
  · intro r opts ra hra hfam
    cases hs : opts.standard.getD true <;>
      cases hl : opts.legacy.getD false
    · rw [hs, hl] at hfam
      simp at hfam
    · simp [buildHeaders, hs, hl, hra, List.lookup]
    · simp [buildHeaders, hs, hl, hra, List.lookup]
    · simp [buildHeaders, hs, hl, hra, List.lookup]
  · intro r ra hra
    cases hpol : r.policy <;> simp [buildHeaders, hra, hpol, List.lookup]

/-- C9 (witness): the amended theorem applied at concrete inputs. -/
theorem headers_families_amended_witness :
    ((some false : Option Bool).getD true = false ∧
      (buildHeaders ⟨true, 100, 95, 1234567890, none, 0, none⟩
        ⟨some false, some true, some false⟩).lookup "RateLimit-Limit" = none) ∧
    ((⟨false, 100, 0, 1234567890, some 1500, 0, none⟩ :
        HLimitResult).retryAfter = some 1500 ∧
      ((some true : Option Bool).getD true = true ∨
        (none : Option Bool).getD false = true) ∧
      (buildHeaders ⟨false, 100, 0, 1234567890, some 1500, 0, none⟩
        ⟨some true, none, none⟩).lookup "Retry-After" =
          some (toString ⌈(1500 : ℚ) / 1000⌉)) := by
  refine ⟨⟨rfl, ?_⟩, rfl, Or.inl rfl, ?_⟩
  · exact (headers_families_amended.1 ⟨true, 100, 95, 1234567890, none, 0, none⟩
      ⟨some false, some true, some false⟩ rfl).1
  · exact headers_families_amended.2.2.2.2.1
      ⟨false, 100, 0, 1234567890, some 1500, 0, none⟩ ⟨some true, none, none⟩
      1500 rfl (Or.inl rfl)

/-! ## Claim C10 — over-capacity cost is never admissible -/

/-- C10: for every reachable Token Bucket state (`tokens <= capacity`) and
every time `now`, a request with `cost > capacity` is denied — refill is
capped at `capacity`, so no elapsed time can make it admissible — yet the
decision still carries a finite positive `retryAfter` of
`ceil((cost - tokens) / refillPerMs)` milliseconds, naming a wait that can
never suffice. -/
theorem over_capacity_never_admissible :
    ∀ (capacity rate cost : ℚ) (s : TBState) (now : ℤ),
      s.tokens ≤ capacity → capacity < cost → 0 < rate →
      (tokenBucketCompute capacity rate (some s) cost now).result.allowed
        = false ∧
      (tokenBucketCompute capacity rate (some s) cost now).result.retryAfter =
        some ⌈(cost - (tbRefill capacity (rate / 1000) s now).tokens) /
          (rate / 1000)⌉ ∧
      0 < ⌈(cost - (tbRefill capacity (rate / 1000) s now).tokens) /
          (rate / 1000)⌉ := by
  intro capacity rate cost s now htok hcap hrate
  have hle : (tbRefill capacity (rate / 1000) s now).tokens ≤ capacity :=
    tbRefill_le_capacity htok
  have hdeny : ¬ cost ≤
      (tbRefill capacity (rate / 1000) ((some s).getD ⟨capacity, now⟩) now).tokens := by
    simp only [Option.getD_some]
    linarith
  refine ⟨?_, ?_, ?_⟩
  · rw [tokenBucketCompute_allowed]
    simp only [Option.getD_some, decide_eq_false_iff_not, not_le]
    linarith
  · exact tokenBucketCompute_retryAfter capacity rate (some s) cost now hdeny
      (by positivity)
  · refine Int.ceil_pos.mpr (div_pos ?_ (by positivity))
    linarith

/-- C10 (witness): the over-capacity theorem applied at concrete inputs
(`capacity = 1`, `refillRatePerSec = 2`, a cost-2 request on a full
bucket). -/
theorem over_capacity_never_admissible_witness :
    (1 : ℚ) ≤ 1 ∧ (1 : ℚ) < 2 ∧ (0 : ℚ) < 2 ∧
    (tokenBucketCompute 1 2 (some ⟨1, 0⟩) 2 0).result.allowed = false ∧
    0 < ⌈((2 : ℚ) - (tbRefill 1 (2 / 1000) ⟨1, 0⟩ 0).tokens) / (2 / 1000)⌉ :=
  ⟨by decide, by decide, by decide,
    (over_capacity_never_admissible 1 2 2 ⟨1, 0⟩ 0 (by decide) (by decide)
      (by decide)).1,
    (over_capacity_never_admissible 1 2 2 ⟨1, 0⟩ 0 (by decide) (by decide)
      (by decide)).2.2⟩

end RatelimitKit
